import Mathlib

/-!
Verification of the kira.black perception front-end.

Shallow embedding of the signal-arbitration and audio-coordination layer:
the Silero VAD segmenter, the mute-aware transcription coordinator and its
hallucination filter, the line protocol command parser, the frame
differencer, the echo-cancellation state machine, the interruptible
playback controller and the base sense command router.

External collaborators (the Silero scorer, the Whisper transcriber, the
numpy image pipeline, json.loads) are modelled as inputs or abstract
function parameters; machine floats are modelled with exact rationals and
Nat floor division; text is modelled as lists of characters with the
ASCII fragments of the Python semantics of str.strip, str.lower and the
regular expressions used by the hallucination filter.
-/

namespace Kira

/-! ### VAD segmenter, from src/kira/perception/audio/vad.py -/

namespace Vad

def SAMPLE_RATE : Nat := 16000

def CHUNK_MS : Nat := 32

/-- CHUNK_SAMPLES = int(SAMPLE_RATE * CHUNK_MS / 1000) = 512. -/
def CHUNK_SAMPLES : Nat := SAMPLE_RATE * CHUNK_MS / 1000

/-- An input chunk: its sample count together with the speech probability
the external Silero model returns for it. -/
structure Chunk where
  len : Nat
  prob : Rat
deriving DecidableEq

/-- Configuration of SileroVAD, already converted to sample counts. -/
structure VADConfig where
  threshold : Rat
  min_speech_samples : Nat
  min_silence_samples : Nat
  speech_pad_samples : Nat
deriving DecidableEq

/-- SileroVAD.__init__: millisecond thresholds are converted once to
sample counts with int(SAMPLE_RATE * ms / 1000). -/
def mkVAD (threshold : Rat) (min_speech_ms min_silence_ms speech_pad_ms : Nat) : VADConfig :=
  { threshold := threshold
    min_speech_samples := SAMPLE_RATE * min_speech_ms / 1000
    min_silence_samples := SAMPLE_RATE * min_silence_ms / 1000
    speech_pad_samples := SAMPLE_RATE * speech_pad_ms / 1000 }

/-- The mutable state of SileroVAD.  Buffered audio is abstracted to the
per-chunk sample counts; wall-clock times are abstract rationals. -/
structure VADState where
  speech_buffer : List Nat
  silence_samples : Nat
  speech_samples : Nat
  in_speech : Bool
  speech_start_time : Option Rat
deriving DecidableEq

def VADState.init : VADState :=
  { speech_buffer := []
    silence_samples := 0
    speech_samples := 0
    in_speech := false
    speech_start_time := none }

/-- SileroVAD.reset: the five state fields return to their initial
values. -/
def reset (_st : VADState) : VADState :=
  { speech_buffer := []
    silence_samples := 0
    speech_samples := 0
    in_speech := false
    speech_start_time := none }

/-- A SpeechSegment; the audio array is abstracted to its sample count. -/
structure SpeechSegment where
  audioLen : Nat
  start_time : Option Rat
  end_time : Rat
  duration_ms : Nat
deriving DecidableEq

/-- A segment emission, with the values of the speech and silence sample
counters at the moment _emit_segment ran recorded alongside, so that the
theorems can speak about the accumulated speech inside the segment. -/
structure EmitRecord where
  seg : SpeechSegment
  speechAtEmit : Nat
  silenceAtEmit : Nat
deriving DecidableEq

/-- SileroVAD._emit_segment: invokes the callback only when the speech
counter has reached min_speech_samples and the buffer is nonempty, and
resets the state either way. -/
def emit_segment (cfg : VADConfig) (st : VADState) (now : Rat) :
    Option EmitRecord × VADState :=
  let fired :=
    if cfg.min_speech_samples ≤ st.speech_samples ∧ st.speech_buffer ≠ [] then
      let audioLen := st.speech_buffer.sum
      some { seg := { audioLen := audioLen
                      start_time := st.speech_start_time
                      end_time := now
                      duration_ms := audioLen * 1000 / SAMPLE_RATE }
             speechAtEmit := st.speech_samples
             silenceAtEmit := st.silence_samples }
    else none
  (fired, VADState.init)

/-- SileroVAD.process_chunk.  The chunk is classified against the
threshold; chunks shorter than CHUNK_SAMPLES are rejected without any
state change.  Returns the new state, the emitted segment if any, and the
returned speech probability. -/
def process_chunk (cfg : VADConfig) (st : VADState) (c : Chunk) (now : Rat) :
    VADState × Option EmitRecord × Option Rat :=
  if c.len < CHUNK_SAMPLES then (st, none, none)
  else
    let is_speech : Bool := decide (cfg.threshold ≤ c.prob)
    if is_speech then
      let st1 :=
        if st.in_speech then st
        else { st with in_speech := true
                       speech_start_time := some now
                       speech_samples := 0
                       silence_samples := 0 }
      let st2 := { st1 with speech_buffer := st1.speech_buffer ++ [c.len]
                            speech_samples := st1.speech_samples + c.len
                            silence_samples := 0 }
      (st2, none, some c.prob)
    else
      if st.in_speech then
        let st1 := { st with speech_buffer := st.speech_buffer ++ [c.len]
                             silence_samples := st.silence_samples + c.len }
        if cfg.min_silence_samples ≤ st1.silence_samples then
          let p := emit_segment cfg st1 now
          (p.2, p.1, some c.prob)
        else (st1, none, some c.prob)
      else (st, none, some c.prob)

/-- Feeding a sequence of chunks through process_chunk, collecting the
emitted segments.  Wall-clock time is irrelevant to the claims and fixed
at 0. -/
def runVAD (cfg : VADConfig) (st : VADState) : List Chunk → VADState × List EmitRecord
  | [] => (st, [])
  | c :: rest =>
      let p := process_chunk cfg st c 0
      let r := runVAD cfg p.1 rest
      (r.1, p.2.1.toList ++ r.2)

/-- Classification of a chunk exactly as process_chunk performs it. -/
def chunkIsSpeech (cfg : VADConfig) (c : Chunk) : Bool :=
  decide (cfg.threshold ≤ c.prob)

/-- The spec sentence, formalised: the chunk sequence contains a
contiguous run of speech-classified chunks totalling at least
min_speech_samples, immediately followed by a contiguous run of
silence-classified chunks totalling at least min_silence_samples. -/
def specQualifyingRun (cfg : VADConfig) (chunks : List Chunk) : Prop :=
  ∃ i < chunks.length, ∃ d1 < chunks.length + 1, ∃ d2 < chunks.length + 1,
    0 < d1 ∧ 0 < d2 ∧ i + d1 + d2 ≤ chunks.length ∧
    (((chunks.drop i).take d1).all (fun c => chunkIsSpeech cfg c)) = true ∧
    cfg.min_speech_samples ≤ (((chunks.drop i).take d1).map Chunk.len).sum ∧
    (((chunks.drop (i + d1)).take d2).all (fun c => !chunkIsSpeech cfg c)) = true ∧
    cfg.min_silence_samples ≤ (((chunks.drop (i + d1)).take d2).map Chunk.len).sum

instance (cfg : VADConfig) (chunks : List Chunk) :
    Decidable (specQualifyingRun cfg chunks) := by
  unfold specQualifyingRun
  infer_instance

/-- A VAD state is reachable when it arises from the initial state by any
interleaving of process_chunk calls and resets. -/
inductive ReachableVAD (cfg : VADConfig) : VADState → Prop where
  | start : ReachableVAD cfg VADState.init
  | step : ∀ st c now, ReachableVAD cfg st → ReachableVAD cfg (process_chunk cfg st c now).1
  | resetStep : ∀ st, ReachableVAD cfg st → ReachableVAD cfg (reset st)

end Vad

/-! ### Text helpers shared by the coordinator and the protocol.
ASCII models of the Python string operations used by the source. -/

/-- Python str.isspace characters relevant here: the class matched by the
regex escape for whitespace (space, tab, newline, carriage return,
vertical tab, form feed). -/
def pyWhitespace (c : Char) : Bool :=
  c == ' ' || c == '\t' || c == '\n' || c == '\r' || c == Char.ofNat 11 || c == Char.ofNat 12

/-- Python str.strip with no argument: drop leading and trailing
whitespace. -/
def pyStrip (s : List Char) : List Char :=
  ((s.dropWhile pyWhitespace).reverse.dropWhile pyWhitespace).reverse

/-- Python str.lower, ASCII fragment. -/
def pyLower (s : List Char) : List Char := s.map Char.toLower

/-- Python substring containment, needle in hay. -/
def containsSeq (needle hay : List Char) : Bool :=
  hay.tails.any (fun t => needle.isPrefixOf t)

/-! ### Mute-aware transcription coordinator, from
src/kira/perception/audio/fast_whisper_service.py -/

namespace FastWhisper

/-- The regex word-character class (ASCII fragment): letters, digits and
underscore. -/
def isWordChar (c : Char) : Bool := c.isAlphanum || c == '_'

/-- The fixed hallucination phrase list HALLUCINATION_PATTERNS. -/
def HALLUCINATION_PATTERNS : List (List Char) :=
  (["thank you for watching", "thanks for watching", "please subscribe",
    "like and subscribe", "see you next time", "bye bye", "goodbye",
    "[music]", "[applause]", "you", "the"]).map String.toList

/-- A word boundary holds at this position: end of text or a non-word
character next. -/
def boundaryAt : List Char → Bool
  | [] => true
  | c :: _ => !isWordChar c

/-- After the captured word w, match two or more repetitions of
whitespace-then-w followed by a word boundary.  Because w starts with a
word character, each repetition must consume the whole whitespace run, so
matching is deterministic up to the choice to stop; fuel bounds the
recursion by the remaining length. -/
def matchReps (w : List Char) : Nat → List Char → Nat → Bool
  | 0, _, _ => false
  | fuel + 1, rest, reps =>
      (decide (2 ≤ reps) && boundaryAt rest) ||
      (let sp := rest.takeWhile pyWhitespace
       !sp.isEmpty && w.isPrefixOf (rest.drop sp.length) &&
       matchReps w fuel (rest.drop (sp.length + w.length)) (reps + 1))

/-- The search for a word repeated three or more times with spaces: a
word boundary, a captured word of any length up to the word run at that
position, then at least two whitespace-separated copies, then a word
boundary. -/
def wordRepeat (t : List Char) : Bool :=
  (List.range t.length).any (fun i =>
    (i == 0 || !isWordChar (t.getD (i - 1) ' ')) &&
    (let suf := t.drop i
     let runLen := (suf.takeWhile isWordChar).length
     (List.range runLen).any (fun k =>
       matchReps (suf.take (k + 1)) (t.length + 1) (suf.drop (k + 1)) 0)))

/-- After the captured single character, match one or more repetitions of
whitespace-then-that-character, then trailing whitespace to the end. -/
def scReps (c : Char) : Nat → List Char → Bool → Bool
  | 0, _, _ => false
  | fuel + 1, rest, hasRep =>
      (hasRep && rest.all pyWhitespace) ||
      (let sp := rest.takeWhile pyWhitespace
       !sp.isEmpty &&
       (match rest.drop sp.length with
        | c2 :: rest2 => c2 == c && scReps c fuel rest2 true
        | [] => false))

/-- The anchored match for a single word character repeated with spaces
from the start of the text to its end. -/
def singleCharRepeat : List Char → Bool
  | [] => false
  | c :: rest => isWordChar c && scReps c (rest.length + 1) rest false

/-- The search for a group of one to three non-newline characters
repeated four or more times consecutively. -/
def groupRepeat (t : List Char) : Bool :=
  t.tails.any (fun suf =>
    ([1, 2, 3] : List Nat).any (fun L =>
      let g := suf.take L
      g.length == L && g.all (fun c => c != '\n') &&
      ((suf.drop L).take (3 * L) == g ++ g ++ g)))

/-- is_hallucination: strip and lowercase, then apply the filters in the
order of the source - minimum length, punctuation-only, phrase list
(exact match always, substring match only for phrases longer than five
characters), word repeated three or more times, single character
repeated with spaces, short group repeated four or more times. -/
def is_hallucination (raw : List Char) : Bool :=
  let text := pyLower (pyStrip raw)
  if text.length < 3 then true
  else if !text.isEmpty &&
      text.all (fun c =>
        pyWhitespace c || c == '.' || c == ',' || c == '!' || c == '?' || c == '-') then true
  else if HALLUCINATION_PATTERNS.any (fun p =>
      text == p || (decide (5 < p.length) && containsSeq p text)) then true
  else if wordRepeat text then true
  else if singleCharRepeat text then true
  else if groupRepeat text then true
  else false

/-- FastWhisperTranscriber.INTERRUPT_KEYWORDS. -/
def INTERRUPT_KEYWORDS : List (List Char) :=
  (["kira", "stop", "wait", "quiet"]).map String.toList

/-- FastWhisperTranscriber._is_interrupt: the lowercased text contains
some interrupt keyword. -/
def is_interrupt (text : List Char) : Bool :=
  INTERRUPT_KEYWORDS.any (fun kw => containsSeq kw (pyLower text))

/-- Which callbacks a call to _handle_speech fires for one segment. -/
structure SpeechEvents where
  interruptFired : Bool
  transcriptionFired : Bool
deriving DecidableEq

/-- FastWhisperTranscriber._handle_speech, with the external transcriber
abstracted into its output: joined is the space-joined transcription of
the segment, and muted is the snapshot of the mute flag taken under the
lock.  Both callbacks are registered. -/
def handle_speech (muted : Bool) (joined : List Char) : SpeechEvents :=
  let text := pyStrip joined
  if text.isEmpty then { interruptFired := false, transcriptionFired := false }
  else if is_hallucination text then { interruptFired := false, transcriptionFired := false }
  else
    let isInt := is_interrupt text
    if muted then { interruptFired := isInt, transcriptionFired := false }
    else { interruptFired := isInt, transcriptionFired := true }

/-- The transcriber state touched by mute and unmute. -/
structure TranscriberState where
  muted : Bool
  vad : Vad.VADState
deriving DecidableEq

/-- FastWhisperTranscriber.mute: set the flag, then reset the VAD. -/
def mute (st : TranscriberState) : TranscriberState :=
  { muted := true, vad := Vad.reset st.vad }

/-- FastWhisperTranscriber.unmute: reset the VAD, then clear the flag. -/
def unmute (st : TranscriberState) : TranscriberState :=
  { muted := false, vad := Vad.reset st.vad }

end FastWhisper

/-! ### Line protocol, from src/kira/senses/protocol.py -/

namespace Protocol

/-- A parsed JSON value. -/
inductive JValue where
  | null : JValue
  | bool : Bool → JValue
  | num : Rat → JValue
  | str : List Char → JValue
  | arr : List JValue → JValue
  | obj : List (List Char × JValue) → JValue

/-- The Python exceptions Command.from_json can let escape: data.get on a
non-dict raises AttributeError, which is not in the except clause. -/
inductive PyExc where
  | attributeError
deriving DecidableEq

/-- Dictionary key lookup, data.get(k). -/
def lookupKey (fields : List (List Char × JValue)) (k : List Char) : Option JValue :=
  (fields.find? (fun p => p.1 == k)).map (fun p => p.2)

/-- data.get of the type key compared with the string command. -/
def typeIsCommand (fields : List (List Char × JValue)) : Bool :=
  match lookupKey fields ("type".toList) with
  | some (JValue.str s) => s == "command".toList
  | _ => false

/-- A Command message; the command and options fields hold whatever JSON
values the line carried. -/
structure Command where
  command : JValue
  options : JValue

/-- Command.from_json, over the outcome of json.loads on the line: none
models a JSONDecodeError, which is caught.  On a JSON object the command
is extracted, a missing command key being a caught KeyError; on any
non-object JSON value, data.get raises an uncaught AttributeError. -/
def Command.from_json (parsed : Option JValue) : Except PyExc (Option Command) :=
  match parsed with
  | none => Except.ok none
  | some (JValue.obj fields) =>
      if typeIsCommand fields || (lookupKey fields ("command".toList)).isSome then
        match lookupKey fields ("command".toList) with
        | some c =>
            Except.ok (some { command := c
                              options := (lookupKey fields ("options".toList)).getD (JValue.obj []) })
        | none => Except.ok none
      else Except.ok none
  | some _ => Except.error PyExc.attributeError

/-- read_commands: strip each line, skip blank lines, parse the rest and
yield the commands; an exception escaping Command.from_json aborts the
whole loop.  json.loads is an external collaborator, passed in as the
function loads. -/
def read_commands (loads : List Char → Option JValue) :
    List (List Char) → Except PyExc (List Command)
  | [] => Except.ok []
  | line :: rest =>
      let s := pyStrip line
      if s.isEmpty then read_commands loads rest
      else
        match Command.from_json (loads s) with
        | Except.error e => Except.error e
        | Except.ok none => read_commands loads rest
        | Except.ok (some c) =>
            match read_commands loads rest with
            | Except.error e => Except.error e
            | Except.ok cs => Except.ok (c :: cs)

end Protocol

/-! ### Frame differencer, from src/kira/perception/vlm/frame_diff.py -/

namespace FrameDiff

/-- FrameDiffResult. -/
structure FrameDiffResult where
  changed : Bool
  diff_score : Rat
  motion_regions : Nat
deriving DecidableEq

/-- FrameDifferencer configuration. -/
structure FrameDiffConfig where
  change_threshold : Rat
  motion_threshold : Rat
  min_frames_between_vlm : Nat
deriving DecidableEq

/-- The numpy image pipeline, abstracted: downsampling, the diff score of
_calculate_diff and the motion-region count of _count_motion_regions are
external numeric functions of the frames. -/
structure FrameOps (Frame : Type) where
  downsample : Frame → Frame
  calcDiff : Frame → Frame → Rat
  countRegions : Frame → Frame → Nat

/-- FrameDifferencer state: the two baselines are set and cleared
together in the source, so they are carried as one optional pair. -/
structure DifferencerState (Frame : Type) where
  baselines : Option (Frame × Frame)
  frames_since_vlm : Nat

/-- FrameDifferencer.should_run_vlm: the counter is incremented, the
frame downsampled; the first frame always runs; otherwise the decision
is cooldown-expired motion, unconditional significant change, or three
or more motion regions with motion, and on a run both baselines advance
and the counter resets while on a skip only the raw previous-frame
baseline advances. -/
def should_run_vlm {Frame : Type} (cfg : FrameDiffConfig) (ops : FrameOps Frame)
    (st : DifferencerState Frame) (frame : Frame) :
    (Bool × FrameDiffResult) × DifferencerState Frame :=
  let frames_since := st.frames_since_vlm + 1
  let small := ops.downsample frame
  match st.baselines with
  | none =>
      ((true, { changed := true, diff_score := 1, motion_regions := 0 }),
       { baselines := some (small, small), frames_since_vlm := 0 })
  | some (lastF, lastVlm) =>
      let _diff_from_last := ops.calcDiff lastF small
      let diff_from_vlm := ops.calcDiff lastVlm small
      let motion_regions := ops.countRegions lastVlm small
      let result : FrameDiffResult :=
        { changed := decide (cfg.change_threshold < diff_from_vlm)
          diff_score := diff_from_vlm
          motion_regions := motion_regions }
      let run :=
        (decide (cfg.min_frames_between_vlm ≤ frames_since) &&
          decide (cfg.motion_threshold < diff_from_vlm)) ||
        decide (cfg.change_threshold < diff_from_vlm) ||
        (decide (3 ≤ motion_regions) && decide (cfg.motion_threshold < diff_from_vlm))
      if run then
        ((true, result), { baselines := some (small, small), frames_since_vlm := 0 })
      else
        ((false, result), { baselines := some (small, lastVlm), frames_since_vlm := frames_since })

end FrameDiff

/-! ### Echo-cancellation coordinator, from
src/kira/perception/audio/echo_cancellation.py -/

namespace Echo

/-- AudioState. -/
inductive AudioState where
  | LISTENING
  | SPEAKING
  | INTERRUPT_CHECK
deriving DecidableEq

/-- EchoCancellationManager state: the audio state plus whether the
periodic interrupt-check timer thread is running. -/
structure EchoState where
  state : AudioState
  timerRunning : Bool
deriving DecidableEq

def EchoState.init : EchoState := { state := AudioState.LISTENING, timerRunning := false }

/-- start_speaking: a no-op when already SPEAKING; otherwise transition
to SPEAKING, fire the state-change notification once and start one timer
thread.  Returns the new state, the notifications fired and the number
of timer threads spawned. -/
def start_speaking (st : EchoState) : EchoState × List AudioState × Nat :=
  if st.state = AudioState.SPEAKING then (st, [], 0)
  else ({ state := AudioState.SPEAKING, timerRunning := true }, [AudioState.SPEAKING], 1)

/-- stop_speaking: signal and join the timer, transition unconditionally
to LISTENING and notify. -/
def stop_speaking (_st : EchoState) : EchoState × List AudioState :=
  ({ state := AudioState.LISTENING, timerRunning := false }, [AudioState.LISTENING])

/-- is_mic_active: a pure function of the state, true for LISTENING and
INTERRUPT_CHECK. -/
def is_mic_active (st : EchoState) : Bool :=
  st.state == AudioState.LISTENING || st.state == AudioState.INTERRUPT_CHECK

end Echo

/-! ### Interruptible playback controller, from
src/kira/perception/tts/piper_service.py

The controller is concurrent: speak and interrupt run on the caller
thread while the playback loop runs on its own thread.  It is modelled
as a transition system whose atomic steps are the lines of the source
between synchronisation points, and schedules are arbitrary
interleavings. -/

namespace Piper

/-- Where the playback loop stands for the item it is handling: idle
between iterations, item dequeued, interrupted-flag check passed, or
playback process running. -/
inductive LoopStage where
  | idle
  | hasItem (item : Nat)
  | checked (item : Nat)
  | playing (item : Nat)
deriving DecidableEq

/-- PiperTTS state.  Queued audio files are numbered.  played records
every playback start; playedAfterInterrupt records those that started
after an interrupt call had already returned, and interruptReturned
records whether one has. -/
structure TTSState where
  queue : List Nat
  interrupted : Bool
  proc : Option Nat
  loopStage : LoopStage
  interruptReturned : Bool
  played : List Nat
  playedAfterInterrupt : List Nat
deriving DecidableEq

def TTSState.init : TTSState :=
  { queue := [], interrupted := false, proc := none, loopStage := LoopStage.idle
    interruptReturned := false, played := [], playedAfterInterrupt := [] }

/-- Atomic steps.  speakFlag and speakEnqueue are the two effects of a
non-blocking speak call (clear the interrupted flag; enqueue the
generated audio).  loopDequeue, loopCheck, loopStart and procEnd are the
playback loop: dequeue, test the interrupted flag immediately before
starting playback, start the playback process, and observe the process
exit.  interruptCall is the whole interrupt call: set the flag,
terminate or kill any running process within the bounded timeout
(modelled as succeeding), and drain the queue. -/
inductive TTSStep where
  | speakFlag
  | speakEnqueue (item : Nat)
  | loopDequeue
  | loopCheck
  | loopStart
  | procEnd
  | interruptCall
deriving DecidableEq

def ttsStep (st : TTSState) : TTSStep → TTSState
  | TTSStep.speakFlag => { st with interrupted := false }
  | TTSStep.speakEnqueue item => { st with queue := st.queue ++ [item] }
  | TTSStep.loopDequeue =>
      match st.loopStage, st.queue with
      | LoopStage.idle, item :: rest => { st with queue := rest, loopStage := LoopStage.hasItem item }
      | _, _ => st
  | TTSStep.loopCheck =>
      match st.loopStage with
      | LoopStage.hasItem item =>
          if st.interrupted then { st with loopStage := LoopStage.idle }
          else { st with loopStage := LoopStage.checked item }
      | _ => st
  | TTSStep.loopStart =>
      match st.loopStage with
      | LoopStage.checked item =>
          { st with loopStage := LoopStage.playing item
                    proc := some item
                    played := st.played ++ [item]
                    playedAfterInterrupt :=
                      if st.interruptReturned then st.playedAfterInterrupt ++ [item]
                      else st.playedAfterInterrupt }
      | _ => st
  | TTSStep.procEnd =>
      match st.loopStage with
      | LoopStage.playing _ => { st with loopStage := LoopStage.idle, proc := none }
      | _ => st
  | TTSStep.interruptCall =>
      { st with interrupted := true, proc := none, queue := [], interruptReturned := true }

/-- Run a schedule of steps. -/
def ttsRun (st : TTSState) (steps : List TTSStep) : TTSState :=
  steps.foldl ttsStep st

/-- PiperTTS.is_speaking: a playback process is alive or items remain
queued. -/
def is_speaking (st : TTSState) : Bool :=
  st.proc.isSome || !st.queue.isEmpty

/-- Whether a step belongs to a speak call. -/
def isSpeakStep : TTSStep → Bool
  | TTSStep.speakFlag => true
  | TTSStep.speakEnqueue _ => true
  | _ => false

/-- Whether the loop stands between its interrupted-flag check and the
start of playback. -/
def isCheckedStage : LoopStage → Bool
  | LoopStage.checked _ => true
  | _ => false

end Piper

/-! ### Base sense command routing, from src/kira/senses/base.py -/

namespace SenseBase

/-- The side effects _handle_command can trigger on the subclass. -/
inductive SenseEvent where
  | started
  | stopped
  | configured
deriving DecidableEq

/-- BaseSense state: the running flag and the configuration dict. -/
structure SenseState where
  running : Bool
  config : List (List Char × Protocol.JValue)

/-- Replace the value under a key, or append the binding. -/
def setKey (d : List (List Char × Protocol.JValue)) (k : List Char) (v : Protocol.JValue) :
    List (List Char × Protocol.JValue) :=
  if d.any (fun p => p.1 == k) then d.map (fun p => if p.1 == k then (k, v) else p)
  else d ++ [(k, v)]

/-- Python dict.update: merge the bindings of opts into d. -/
def dictUpdate (d opts : List (List Char × Protocol.JValue)) :
    List (List Char × Protocol.JValue) :=
  opts.foldl (fun acc p => setKey acc p.1 p.2) d

/-- The comparison cmd.command == s of Python: only a string value equal
to s matches. -/
def isCmd (cmd : Protocol.Command) (s : List Char) : Bool :=
  match cmd.command with
  | Protocol.JValue.str t => t == s
  | _ => false

/-- The options of a command as a dict.  Passing a non-object here would
raise in Python when splatted into configure; that path is outside the
claims and modelled as an empty dict. -/
def optionsDict (cmd : Protocol.Command) : List (List Char × Protocol.JValue) :=
  match cmd.options with
  | Protocol.JValue.obj fields => fields
  | _ => []

/-- BaseSense._handle_command: start only when not running, stop only
when running, configure merges options; unknown commands are logged
only.  The returned event list records which subclass hooks were
invoked. -/
def handle_command (st : SenseState) (cmd : Protocol.Command) : SenseState × List SenseEvent :=
  if isCmd cmd ("start".toList) then
    if st.running then (st, [])
    else ({ st with running := true }, [SenseEvent.started])
  else if isCmd cmd ("stop".toList) then
    if st.running then ({ st with running := false }, [SenseEvent.stopped])
    else (st, [])
  else if isCmd cmd ("configure".toList) then
    ({ st with config := dictUpdate st.config (optionsDict cmd) }, [SenseEvent.configured])
  else (st, [])

end SenseBase

/-! ### Concrete instances used by the theorems -/

/-- The text of the spec example that contains an apostrophe. -/
def kiraWeatherText : List Char :=
  String.toList "Kira, what" ++ [Char.ofNat 39] ++ String.toList "s the weather?"

/-- The VAD configuration of FastWhisperTranscriber.__init__:
min_speech_ms 250, min_silence_ms 700, default padding; threshold 1 so
that probability 1 classifies as speech and probability 0 as silence. -/
def vadCfg7 : Vad.VADConfig := Vad.mkVAD 1 250 700 100

/-- Ten speech chunks of 32 ms covering 300 ms, then twenty-four silence
chunks covering 750 ms, each 512 samples. -/
def vadChunks7 : List Vad.Chunk :=
  List.replicate 10 { len := 512, prob := 1 } ++ List.replicate 24 { len := 512, prob := 0 }

/-- A configuration with min_speech_ms 250 and min_silence_ms 128, so
that four silence chunks close a segment. -/
def vadCfgCx : Vad.VADConfig := Vad.mkVAD 1 250 128 100

/-- Four speech chunks, one silence chunk, four speech chunks, four
silence chunks: the speech accumulates to 4096 samples across the gap
although no contiguous speech run reaches 4000 samples. -/
def vadChunksCx : List Vad.Chunk :=
  List.replicate 4 { len := 512, prob := 1 } ++ [{ len := 512, prob := 0 }] ++
    List.replicate 4 { len := 512, prob := 1 } ++ List.replicate 4 { len := 512, prob := 0 }

/-- A small qualifying input for the emission theorem: eight speech
chunks then four silence chunks under vadCfgCx. -/
def vadChunksW : List Vad.Chunk :=
  List.replicate 8 { len := 512, prob := 1 } ++ List.replicate 4 { len := 512, prob := 0 }

/-- A json.loads stand-in defined on the single demonstration line, the
valid JSON array text. -/
def loadsDemo : List Char → Option Protocol.JValue := fun s =>
  if s == String.toList "[1, 2]" then
    some (Protocol.JValue.arr [Protocol.JValue.num 1, Protocol.JValue.num 2])
  else none

/-- Trivial frame operations over a one-point frame type, with constant
divergence 2 and no motion regions. -/
def unitFrameOps : FrameDiff.FrameOps Unit :=
  { downsample := fun u => u, calcDiff := fun _ _ => 2, countRegions := fun _ _ => 0 }

/-- A frame differencer configuration with motion threshold 0, change
threshold 1 and a five-frame cooldown. -/
def demoFrameCfg : FrameDiff.FrameDiffConfig :=
  { change_threshold := 1, motion_threshold := 0, min_frames_between_vlm := 5 }

/-- The racing schedule: a non-blocking speak completes, the playback
loop dequeues the item and passes its interrupted-flag check, interrupt
runs in full, and only then does the loop start the playback process. -/
def raceSchedule : List Piper.TTSStep :=
  [Piper.TTSStep.speakFlag, Piper.TTSStep.speakEnqueue 0, Piper.TTSStep.loopDequeue,
   Piper.TTSStep.loopCheck, Piper.TTSStep.interruptCall, Piper.TTSStep.loopStart]

/-- A schedule where interrupt wins the race: speak completes and
interrupt runs before the loop wakes up. -/
def safeSchedulePre : List Piper.TTSStep :=
  [Piper.TTSStep.speakFlag, Piper.TTSStep.speakEnqueue 0]

/-- The loop steps that may still run after the interrupt returned. -/
def safeSchedulePost : List Piper.TTSStep :=
  [Piper.TTSStep.loopDequeue, Piper.TTSStep.loopCheck, Piper.TTSStep.procEnd]

/-- A start command. -/
def startCommand : Protocol.Command :=
  { command := Protocol.JValue.str ("start".toList), options := Protocol.JValue.obj [] }

/-! ### Theorems -/

/-- C7: feeding the VAD ten 32 ms speech-classified chunks covering
300 ms followed by twenty-four silence-classified chunks covering 750 ms,
with min_speech_ms 250 and min_silence_ms 700, emits exactly one
segment, and its duration of 1024 ms lies within one chunk duration of
1050 ms. -/
theorem vad_scenario_single_segment :
    ((Kira.Vad.runVAD vadCfg7 Vad.VADState.init vadChunks7).2.map
      (fun r => r.seg.duration_ms)) = [1024] ∧
    1050 - Vad.CHUNK_MS ≤ 1024 ∧ 1024 ≤ 1050 + Vad.CHUNK_MS := by
  decide

/-- C8: the hallucination filter flags a word repeated three times and a
whitespace-only input, does not flag the Kira weather question, and the
interrupt check classifies that question as an interrupt because its
lowercase form contains the keyword kira. -/
theorem hallucination_filter_examples :
    FastWhisper.is_hallucination (String.toList "the the the") = true ∧
    FastWhisper.is_hallucination (String.toList "   ") = true ∧
    FastWhisper.is_hallucination kiraWeatherText = false ∧
    FastWhisper.is_interrupt kiraWeatherText = true := by
  decide

/-- C2, counterexample: the muted segment whose transcription is the
interrupt phrase wait wait wait matches an interrupt keyword, yet fires
no callback at all, because the hallucination filter rejects it before
the interrupt check runs. -/
theorem muted_interrupt_keyword_refuted :
    FastWhisper.is_interrupt (pyStrip (String.toList "wait wait wait")) = true ∧
    FastWhisper.handle_speech true (String.toList "wait wait wait") =
      { interruptFired := false, transcriptionFired := false } := by
  decide

/-- C2, amended: for every segment, the regular transcription callback
fires exactly when the transcriber is not muted and the text is nonempty
and not a hallucination; the interrupt callback fires, muted or not,
exactly when the text is nonempty, not a hallucination and contains an
interrupt keyword; while muted the transcription callback never fires;
in particular the muted segment kira kira still fires the interrupt
callback. -/
theorem muted_segment_handling_amended :
    ∀ (muted : Bool) (joined : List Char),
      ((FastWhisper.handle_speech muted joined).transcriptionFired = true ↔
        (muted = false ∧ (pyStrip joined).isEmpty = false ∧
         FastWhisper.is_hallucination (pyStrip joined) = false)) ∧
      ((FastWhisper.handle_speech muted joined).interruptFired = true ↔
        ((pyStrip joined).isEmpty = false ∧
         FastWhisper.is_hallucination (pyStrip joined) = false ∧
         FastWhisper.is_interrupt (pyStrip joined) = true)) ∧
      (muted = true → (FastWhisper.handle_speech muted joined).transcriptionFired = false) ∧
      (FastWhisper.handle_speech true (String.toList "kira kira")).interruptFired = true := by
  intro muted joined
  refine ⟨?_, ?_, ?_, by decide⟩ <;>
    · unfold FastWhisper.handle_speech
      cases hE : (pyStrip joined).isEmpty <;>
        cases hH : FastWhisper.is_hallucination (pyStrip joined) <;>
          cases hI : FastWhisper.is_interrupt (pyStrip joined) <;>
            cases muted <;> simp [hE, hH, hI]

/-- C3: a line that is valid JSON but not an object, such as the array
line, makes Command.from_json raise an AttributeError instead of
returning None, and the exception aborts the read_commands loop; an
unparseable line is handled as the claim states. -/
theorem command_array_line_crashes :
    Protocol.Command.from_json
        (some (Protocol.JValue.arr [Protocol.JValue.num 1, Protocol.JValue.num 2])) =
      Except.error Protocol.PyExc.attributeError ∧
    Protocol.read_commands loadsDemo [String.toList "[1, 2]"] =
      Except.error Protocol.PyExc.attributeError ∧
    Protocol.Command.from_json none = Except.ok none := by
  exact ⟨rfl, rfl, rfl⟩

/-- C5: from any state that is not already SPEAKING, two consecutive
start_speaking calls fire the SPEAKING notification exactly once, spawn
exactly one timer and leave the state where the first call put it; and
stop_speaking from any state whatsoever leaves the state LISTENING with
the microphone active. -/
theorem echo_start_idempotent_stop_listening :
    ∀ st : Echo.EchoState, st.state ≠ Echo.AudioState.SPEAKING →
      ((Echo.start_speaking st).2.1 ++ (Echo.start_speaking (Echo.start_speaking st).1).2.1 =
          [Echo.AudioState.SPEAKING] ∧
        (Echo.start_speaking st).2.2 + (Echo.start_speaking (Echo.start_speaking st).1).2.2 = 1 ∧
        (Echo.start_speaking (Echo.start_speaking st).1).1 = (Echo.start_speaking st).1) ∧
      (∀ st2 : Echo.EchoState,
        (Echo.stop_speaking st2).1.state = Echo.AudioState.LISTENING ∧
        Echo.is_mic_active (Echo.stop_speaking st2).1 = true) := by
  intro st h
  refine ⟨?_, fun st2 => ⟨rfl, rfl⟩⟩
  simp [Echo.start_speaking, h]

/-- C5 witness: the property at the initial LISTENING state. -/
theorem echo_start_idempotent_stop_listening_witness :
    ((Echo.start_speaking Echo.EchoState.init).2.1 ++
        (Echo.start_speaking (Echo.start_speaking Echo.EchoState.init).1).2.1 =
          [Echo.AudioState.SPEAKING] ∧
      (Echo.start_speaking Echo.EchoState.init).2.2 +
        (Echo.start_speaking (Echo.start_speaking Echo.EchoState.init).1).2.2 = 1 ∧
      (Echo.start_speaking (Echo.start_speaking Echo.EchoState.init).1).1 =
        (Echo.start_speaking Echo.EchoState.init).1) ∧
    (∀ st2 : Echo.EchoState,
      (Echo.stop_speaking st2).1.state = Echo.AudioState.LISTENING ∧
      Echo.is_mic_active (Echo.stop_speaking st2).1 = true) :=
  echo_start_idempotent_stop_listening Echo.EchoState.init (by decide)

/-- C10: a start command while running and a stop command while stopped
leave the sense state unchanged and invoke no subclass hook, and over any
command the started hook runs exactly on a false-to-true transition of
running and the stopped hook exactly on a true-to-false transition. -/
theorem sense_start_stop_transitions :
    ∀ (st : SenseBase.SenseState) (cmd : Protocol.Command),
      (SenseBase.isCmd cmd ("start".toList) = true → st.running = true →
        SenseBase.handle_command st cmd = (st, [])) ∧
      (SenseBase.isCmd cmd ("stop".toList) = true → st.running = false →
        SenseBase.handle_command st cmd = (st, [])) ∧
      (SenseBase.SenseEvent.started ∈ (SenseBase.handle_command st cmd).2 ↔
        (SenseBase.isCmd cmd ("start".toList) = true ∧ st.running = false)) ∧
      (SenseBase.SenseEvent.stopped ∈ (SenseBase.handle_command st cmd).2 ↔
        (SenseBase.isCmd cmd ("stop".toList) = true ∧ st.running = true)) ∧
      (SenseBase.SenseEvent.started ∈ (SenseBase.handle_command st cmd).2 →
        (SenseBase.handle_command st cmd).1.running = true) ∧
      (SenseBase.SenseEvent.stopped ∈ (SenseBase.handle_command st cmd).2 →
        (SenseBase.handle_command st cmd).1.running = false) := by
  intro st cmd
  obtain ⟨cc, opts⟩ := cmd
  cases hr : st.running <;>
    cases cc <;>
      simp [SenseBase.handle_command, SenseBase.isCmd, hr] <;>
        · rename_i t
          by_cases h1 : t = "start".toList <;>
            by_cases h2 : t = "stop".toList <;>
              by_cases h3 : t = "configure".toList <;>
                simp_all

/-- C10 witness: a start command arriving while already running is a
no-op. -/
theorem sense_start_stop_transitions_witness :
    SenseBase.handle_command { running := true, config := [] } startCommand =
      ({ running := true, config := [] }, []) :=
  (sense_start_stop_transitions { running := true, config := [] } startCommand).1 rfl rfl

/-- C4: for every frame after the first, under the stated relation that
motion_threshold is the lower bar, the decision of should_run_vlm
satisfies the three spec clauses: during the cooldown a run implies the
divergence from the last-analyzed frame exceeded motion_threshold;
divergence above change_threshold forces a run regardless of cooldown;
and three or more motion regions together with divergence above
motion_threshold force a run. -/
theorem frame_diff_decision_precedence :
    ∀ (Frame : Type) (ops : FrameDiff.FrameOps Frame) (cfg : FrameDiff.FrameDiffConfig)
      (lastF lastVlm : Frame) (fsv : Nat) (frame : Frame),
      cfg.motion_threshold ≤ cfg.change_threshold →
      ((fsv + 1 < cfg.min_frames_between_vlm →
          (FrameDiff.should_run_vlm cfg ops ⟨some (lastF, lastVlm), fsv⟩ frame).1.1 = true →
          cfg.motion_threshold <
            (FrameDiff.should_run_vlm cfg ops ⟨some (lastF, lastVlm), fsv⟩ frame).1.2.diff_score) ∧
        (cfg.change_threshold <
            (FrameDiff.should_run_vlm cfg ops ⟨some (lastF, lastVlm), fsv⟩ frame).1.2.diff_score →
          (FrameDiff.should_run_vlm cfg ops ⟨some (lastF, lastVlm), fsv⟩ frame).1.1 = true) ∧
        (3 ≤ (FrameDiff.should_run_vlm cfg ops ⟨some (lastF, lastVlm), fsv⟩ frame).1.2.motion_regions →
          cfg.motion_threshold <
            (FrameDiff.should_run_vlm cfg ops ⟨some (lastF, lastVlm), fsv⟩ frame).1.2.diff_score →
          (FrameDiff.should_run_vlm cfg ops ⟨some (lastF, lastVlm), fsv⟩ frame).1.1 = true)) := by
  intro Frame ops cfg lastF lastVlm fsv frame hmc
  by_cases hcd : cfg.change_threshold < ops.calcDiff lastVlm (ops.downsample frame) <;>
    by_cases hmd : cfg.motion_threshold < ops.calcDiff lastVlm (ops.downsample frame) <;>
      by_cases hfr : cfg.min_frames_between_vlm ≤ fsv + 1 <;>
        by_cases hreg : 3 ≤ ops.countRegions lastVlm (ops.downsample frame) <;>
          simp [FrameDiff.should_run_vlm, hcd, hmd, hfr, hreg] <;>
            first
              | assumption
              | omega
              | linarith

/-- C4 witness: the property at the one-point frame type with constant
divergence 2 against thresholds 0 and 1 on the second frame. -/
theorem frame_diff_decision_precedence_witness :
    ((0 + 1 < demoFrameCfg.min_frames_between_vlm →
        (FrameDiff.should_run_vlm demoFrameCfg unitFrameOps ⟨some ((), ()), 0⟩ ()).1.1 = true →
        demoFrameCfg.motion_threshold <
          (FrameDiff.should_run_vlm demoFrameCfg unitFrameOps ⟨some ((), ()), 0⟩ ()).1.2.diff_score) ∧
      (demoFrameCfg.change_threshold <
          (FrameDiff.should_run_vlm demoFrameCfg unitFrameOps ⟨some ((), ()), 0⟩ ()).1.2.diff_score →
        (FrameDiff.should_run_vlm demoFrameCfg unitFrameOps ⟨some ((), ()), 0⟩ ()).1.1 = true) ∧
      (3 ≤ (FrameDiff.should_run_vlm demoFrameCfg unitFrameOps ⟨some ((), ()), 0⟩ ()).1.2.motion_regions →
        demoFrameCfg.motion_threshold <
          (FrameDiff.should_run_vlm demoFrameCfg unitFrameOps ⟨some ((), ()), 0⟩ ()).1.2.diff_score →
        (FrameDiff.should_run_vlm demoFrameCfg unitFrameOps ⟨some ((), ()), 0⟩ ()).1.1 = true)) :=
  frame_diff_decision_precedence Unit unitFrameOps demoFrameCfg () () 0 () (by decide)

/-- One step of any non-speak schedule preserves the post-interrupt
state: empty queue, no process, flag set, loop not between check and
start, and no new post-interrupt playback. -/
theorem ttsStep_interrupted_inv (st : Piper.TTSState) (s : Piper.TTSStep)
    (hs : Piper.isSpeakStep s = false) (hq : st.queue = []) (hp : st.proc = none)
    (hi : st.interrupted = true) (hc : Piper.isCheckedStage st.loopStage = false) :
    (Piper.ttsStep st s).queue = [] ∧ (Piper.ttsStep st s).proc = none ∧
    (Piper.ttsStep st s).interrupted = true ∧
    Piper.isCheckedStage (Piper.ttsStep st s).loopStage = false ∧
    (Piper.ttsStep st s).playedAfterInterrupt = st.playedAfterInterrupt := by
  obtain ⟨q, intr, pr, stage, ir, pl, pai⟩ := st
  simp only at hq hp hi hc
  subst hq; subst hp; subst hi
  cases s <;> cases stage <;>
    simp_all [Piper.ttsStep, Piper.isSpeakStep, Piper.isCheckedStage]

/-- Running any schedule without speak steps from a post-interrupt state
keeps the queue empty, the process dead and the post-interrupt playback
record unchanged. -/
theorem ttsRun_interrupted_inv :
    ∀ (post : List Piper.TTSStep) (st : Piper.TTSState),
      (∀ s ∈ post, Piper.isSpeakStep s = false) →
      st.queue = [] → st.proc = none → st.interrupted = true →
      Piper.isCheckedStage st.loopStage = false →
      (Piper.ttsRun st post).queue = [] ∧ (Piper.ttsRun st post).proc = none ∧
      (Piper.ttsRun st post).interrupted = true ∧
      Piper.isCheckedStage (Piper.ttsRun st post).loopStage = false ∧
      (Piper.ttsRun st post).playedAfterInterrupt = st.playedAfterInterrupt := by
  intro post
  induction post with
  | nil => intro st _ hq hp hi hc; exact ⟨hq, hp, hi, hc, rfl⟩
  | cons s rest ih =>
      intro st h hq hp hi hc
      have hs : Piper.isSpeakStep s = false := h s (List.mem_cons_self s rest)
      have hrest : ∀ x ∈ rest, Piper.isSpeakStep x = false :=
        fun x hx => h x (List.mem_cons_of_mem s hx)
      have hstep := ttsStep_interrupted_inv st s hs hq hp hi hc
      have hrun : Piper.ttsRun st (s :: rest) = Piper.ttsRun (Piper.ttsStep st s) rest := rfl
      rw [hrun]
      obtain ⟨h1, h2, h3, h4, h5⟩ := ih (Piper.ttsStep st s) hrest hstep.1 hstep.2.1 hstep.2.2.1 hstep.2.2.2.1
      exact ⟨h1, h2, h3, h4, h5.trans hstep.2.2.2.2⟩

/-- C6, counterexample: under the schedule where the playback loop
dequeues the item and passes its interrupted-flag check before the
interrupt call sets the flag, the item starts playing after interrupt
has returned and is_speaking becomes true again, although the interrupt
was issued after the non-blocking speak call had returned. -/
theorem interrupt_playback_race_refuted :
    (Piper.ttsRun Piper.TTSState.init raceSchedule).playedAfterInterrupt = [0] ∧
    Piper.is_speaking (Piper.ttsRun Piper.TTSState.init raceSchedule) = true := by
  decide

/-- C6, amended: interrupt, modelling the bounded terminate-then-kill as
succeeding, always drains the queue and leaves is_speaking false at the
moment it returns; and provided the playback loop has not already passed
its pre-playback interrupted-flag check, then for any continuation
without further speak calls nothing plays after interrupt returns and
is_speaking stays false.  If the loop passed the check first, the item
can still start playing afterwards. -/
theorem interrupt_playback_amended :
    ∀ (pre post : List Piper.TTSStep),
      (∀ s ∈ post, Piper.isSpeakStep s = false) →
      Piper.isCheckedStage (Piper.ttsRun Piper.TTSState.init pre).loopStage = false →
      (Piper.is_speaking
          (Piper.ttsStep (Piper.ttsRun Piper.TTSState.init pre) Piper.TTSStep.interruptCall) = false ∧
        (Piper.ttsStep (Piper.ttsRun Piper.TTSState.init pre) Piper.TTSStep.interruptCall).queue = [] ∧
        Piper.is_speaking
          (Piper.ttsRun
            (Piper.ttsStep (Piper.ttsRun Piper.TTSState.init pre) Piper.TTSStep.interruptCall)
            post) = false ∧
        (Piper.ttsRun
            (Piper.ttsStep (Piper.ttsRun Piper.TTSState.init pre) Piper.TTSStep.interruptCall)
            post).playedAfterInterrupt =
          (Piper.ttsStep (Piper.ttsRun Piper.TTSState.init pre) Piper.TTSStep.interruptCall).playedAfterInterrupt) := by
  intro pre post hpost hc
  obtain ⟨h1, h2, h3, h4, h5⟩ :=
    ttsRun_interrupted_inv post
      (Piper.ttsStep (Piper.ttsRun Piper.TTSState.init pre) Piper.TTSStep.interruptCall)
      hpost rfl rfl rfl hc
  refine ⟨rfl, rfl, ?_, h5⟩
  simp [Piper.is_speaking, h1, h2]

/-- C6 witness: the amended property on the schedule where interrupt
wins the race, with the loop waking up only afterwards. -/
theorem interrupt_playback_amended_witness :
    (Piper.is_speaking
        (Piper.ttsStep (Piper.ttsRun Piper.TTSState.init safeSchedulePre) Piper.TTSStep.interruptCall) = false ∧
      (Piper.ttsStep (Piper.ttsRun Piper.TTSState.init safeSchedulePre) Piper.TTSStep.interruptCall).queue = [] ∧
      Piper.is_speaking
        (Piper.ttsRun
          (Piper.ttsStep (Piper.ttsRun Piper.TTSState.init safeSchedulePre) Piper.TTSStep.interruptCall)
          safeSchedulePost) = false ∧
      (Piper.ttsRun
          (Piper.ttsStep (Piper.ttsRun Piper.TTSState.init safeSchedulePre) Piper.TTSStep.interruptCall)
          safeSchedulePost).playedAfterInterrupt =
        (Piper.ttsStep (Piper.ttsRun Piper.TTSState.init safeSchedulePre) Piper.TTSStep.interruptCall).playedAfterInterrupt) :=
  interrupt_playback_amended safeSchedulePre safeSchedulePost (by decide) (by decide)

/-- A chunk shorter than CHUNK_SAMPLES is rejected without a state
change. -/
theorem process_chunk_short (cfg : Vad.VADConfig) (st : Vad.VADState) (c : Vad.Chunk)
    (now : Rat) (h : c.len < Vad.CHUNK_SAMPLES) :
    Vad.process_chunk cfg st c now = (st, none, none) := by
  simp [Vad.process_chunk, h]

/-- The speech branch of process_chunk: enter or stay in speech, buffer
the chunk, extend the speech counter and zero the silence counter. -/
theorem process_chunk_speech_eq (cfg : Vad.VADConfig) (st : Vad.VADState) (c : Vad.Chunk)
    (now : Rat) (hlen : ¬ c.len < Vad.CHUNK_SAMPLES) (hsp : Vad.chunkIsSpeech cfg c = true) :
    Vad.process_chunk cfg st c now =
      ({ speech_buffer := st.speech_buffer ++ [c.len]
         silence_samples := 0
         speech_samples := (if st.in_speech then st.speech_samples else 0) + c.len
         in_speech := true
         speech_start_time := if st.in_speech then st.speech_start_time else some now },
       none, some c.prob) := by
  have hsp2 : decide (cfg.threshold ≤ c.prob) = true := hsp
  obtain ⟨b, sil, sp, ins, t⟩ := st
  cases ins <;> simp [Vad.process_chunk, hlen, hsp2]

/-- The silence branch while idle: nothing happens. -/
theorem process_chunk_silence_idle_eq (cfg : Vad.VADConfig) (st : Vad.VADState) (c : Vad.Chunk)
    (now : Rat) (hlen : ¬ c.len < Vad.CHUNK_SAMPLES) (hsp : Vad.chunkIsSpeech cfg c = false)
    (hin : st.in_speech = false) :
    Vad.process_chunk cfg st c now = (st, none, some c.prob) := by
  have hsp2 : decide (cfg.threshold ≤ c.prob) = false := hsp
  obtain ⟨b, sil, sp, ins, t⟩ := st
  simp only at hin
  subst hin
  simp [Vad.process_chunk, hlen, hsp2]

/-- The silence branch while in speech, below the silence threshold:
buffer the trailing chunk and extend the silence counter. -/
theorem process_chunk_silence_cont_eq (cfg : Vad.VADConfig) (st : Vad.VADState) (c : Vad.Chunk)
    (now : Rat) (hlen : ¬ c.len < Vad.CHUNK_SAMPLES) (hsp : Vad.chunkIsSpeech cfg c = false)
    (hin : st.in_speech = true)
    (hless : ¬ cfg.min_silence_samples ≤ st.silence_samples + c.len) :
    Vad.process_chunk cfg st c now =
      ({ speech_buffer := st.speech_buffer ++ [c.len]
         silence_samples := st.silence_samples + c.len
         speech_samples := st.speech_samples
         in_speech := true
         speech_start_time := st.speech_start_time }, none, some c.prob) := by
  have hsp2 : decide (cfg.threshold ≤ c.prob) = false := hsp
  obtain ⟨b, sil, sp, ins, t⟩ := st
  simp only at hin hless
  subst hin
  simp [Vad.process_chunk, hlen, hsp2, hless]

/-- The silence branch while in speech, at or above the silence
threshold: the segment emission runs on the state that includes the
trailing chunk, and the state resets. -/
theorem process_chunk_silence_emit_eq (cfg : Vad.VADConfig) (st : Vad.VADState) (c : Vad.Chunk)
    (now : Rat) (hlen : ¬ c.len < Vad.CHUNK_SAMPLES) (hsp : Vad.chunkIsSpeech cfg c = false)
    (hin : st.in_speech = true)
    (hsil : cfg.min_silence_samples ≤ st.silence_samples + c.len) :
    Vad.process_chunk cfg st c now =
      (Vad.VADState.init,
       (Vad.emit_segment cfg
         { speech_buffer := st.speech_buffer ++ [c.len]
           silence_samples := st.silence_samples + c.len
           speech_samples := st.speech_samples
           in_speech := true
           speech_start_time := st.speech_start_time } now).1,
       some c.prob) := by
  have hsp2 : decide (cfg.threshold ≤ c.prob) = false := hsp
  obtain ⟨b, sil, sp, ins, t⟩ := st
  simp only at hin hsil
  subst hin
  simp [Vad.process_chunk, Vad.emit_segment, hlen, hsp2, hsil]

/-- When emit_segment returns a record, the speech guard held and the
counters are the counters of the state it ran on. -/
theorem emit_segment_emit_fields (cfg : Vad.VADConfig) (st : Vad.VADState) (now : Rat)
    (r : Vad.EmitRecord) (h : (Vad.emit_segment cfg st now).1 = some r) :
    cfg.min_speech_samples ≤ st.speech_samples ∧
    r.speechAtEmit = st.speech_samples ∧ r.silenceAtEmit = st.silence_samples := by
  by_cases hg : cfg.min_speech_samples ≤ st.speech_samples ∧ st.speech_buffer ≠ []
  · simp only [Vad.emit_segment, if_pos hg, Option.some.injEq] at h
    subst h
    exact ⟨hg.1, rfl, rfl⟩
  · simp only [Vad.emit_segment, if_neg hg] at h
    cases h

/-- Every emission of process_chunk satisfies both thresholds: the
speech counter of the segment reached min_speech_samples and the
contiguous silence counter reached min_silence_samples. -/
theorem process_chunk_emit_ge (cfg : Vad.VADConfig) (st : Vad.VADState) (c : Vad.Chunk)
    (now : Rat) (r : Vad.EmitRecord) (h : (Vad.process_chunk cfg st c now).2.1 = some r) :
    cfg.min_speech_samples ≤ r.speechAtEmit ∧ cfg.min_silence_samples ≤ r.silenceAtEmit := by
  by_cases hlen : c.len < Vad.CHUNK_SAMPLES
  · rw [process_chunk_short cfg st c now hlen] at h; cases h
  · cases hsp : Vad.chunkIsSpeech cfg c
    · cases hin : st.in_speech
      · rw [process_chunk_silence_idle_eq cfg st c now hlen hsp hin] at h; cases h
      · by_cases hsil : cfg.min_silence_samples ≤ st.silence_samples + c.len
        · rw [process_chunk_silence_emit_eq cfg st c now hlen hsp hin hsil] at h
          obtain ⟨hg, hsE, hsilE⟩ := emit_segment_emit_fields cfg _ now r h
          refine ⟨?_, ?_⟩
          · rw [hsE]; exact hg
          · rw [hsilE]; exact hsil
        · rw [process_chunk_silence_cont_eq cfg st c now hlen hsp hin hsil] at h; cases h
    · rw [process_chunk_speech_eq cfg st c now hlen hsp] at h; cases h

/-- Unfolding runVAD on an empty input. -/
theorem runVAD_nil (cfg : Vad.VADConfig) (st : Vad.VADState) :
    Vad.runVAD cfg st [] = (st, []) := rfl

/-- Unfolding runVAD on a first chunk. -/
theorem runVAD_cons (cfg : Vad.VADConfig) (st : Vad.VADState) (c : Vad.Chunk)
    (rest : List Vad.Chunk) :
    Vad.runVAD cfg st (c :: rest) =
      ((Vad.runVAD cfg (Vad.process_chunk cfg st c 0).1 rest).1,
       (Vad.process_chunk cfg st c 0).2.1.toList ++
         (Vad.runVAD cfg (Vad.process_chunk cfg st c 0).1 rest).2) := rfl

/-- runVAD distributes over concatenation of the input. -/
theorem runVAD_append (cfg : Vad.VADConfig) :
    ∀ (xs ys : List Vad.Chunk) (st : Vad.VADState),
      Vad.runVAD cfg st (xs ++ ys) =
        ((Vad.runVAD cfg (Vad.runVAD cfg st xs).1 ys).1,
         (Vad.runVAD cfg st xs).2 ++ (Vad.runVAD cfg (Vad.runVAD cfg st xs).1 ys).2) := by
  intro xs
  induction xs with
  | nil => intro ys st; simp [runVAD_nil]
  | cons c rest ih => intro ys st; simp [runVAD_cons, ih, List.append_assoc]

/-- Every record emitted along a run satisfies both thresholds. -/
theorem runVAD_records (cfg : Vad.VADConfig) :
    ∀ (xs : List Vad.Chunk) (st : Vad.VADState) (r : Vad.EmitRecord),
      r ∈ (Vad.runVAD cfg st xs).2 →
      cfg.min_speech_samples ≤ r.speechAtEmit ∧ cfg.min_silence_samples ≤ r.silenceAtEmit := by
  intro xs
  induction xs with
  | nil => intro st r hr; simp [runVAD_nil] at hr
  | cons c rest ih =>
      intro st r hr
      rw [runVAD_cons] at hr
      rcases List.mem_append.1 hr with h | h
      · have hsome : (Vad.process_chunk cfg st c 0).2.1 = some r := by
          cases ho : (Vad.process_chunk cfg st c 0).2.1 with
          | none => rw [ho] at h; cases h
          | some a => rw [ho] at h; simp at h; subst h; rfl
        exact process_chunk_emit_ge cfg st c 0 r hsome
      · exact ih _ r h

/-- Processing a speech-classified run from any in-speech state: no
emission, the buffer and speech counter extend by the run, and the
silence counter ends at zero unless the run is empty. -/
theorem runVAD_speech_cont (cfg : Vad.VADConfig) :
    ∀ (xs : List Vad.Chunk) (st : Vad.VADState),
      (∀ c ∈ xs, Vad.CHUNK_SAMPLES ≤ c.len ∧ Vad.chunkIsSpeech cfg c = true) →
      st.in_speech = true →
      Vad.runVAD cfg st xs =
        ({ speech_buffer := st.speech_buffer ++ xs.map Vad.Chunk.len
           silence_samples := if xs.isEmpty then st.silence_samples else 0
           speech_samples := st.speech_samples + (xs.map Vad.Chunk.len).sum
           in_speech := true
           speech_start_time := st.speech_start_time }, []) := by
  intro xs
  induction xs with
  | nil =>
      intro st _ hin
      obtain ⟨b, sil, sp, ins, t⟩ := st
      simp only at hin
      subst hin
      simp [runVAD_nil]
  | cons c rest ih =>
      intro st h hin
      have hc := h c (List.mem_cons_self c rest)
      have hlen : ¬ c.len < Vad.CHUNK_SAMPLES := by
        have := hc.1; omega
      rw [runVAD_cons, process_chunk_speech_eq cfg st c 0 hlen hc.2,
        ih _ (fun x hx => h x (List.mem_cons_of_mem c hx)) rfl]
      simp [hin, List.append_assoc, Nat.add_assoc]

/-- Processing a nonempty speech-classified run from any state: no
emission, the state ends in speech with at least the run total in the
speech counter, a nonempty buffer and a zero silence counter. -/
theorem runVAD_speech_run (cfg : Vad.VADConfig) (c : Vad.Chunk) (rest : List Vad.Chunk)
    (st : Vad.VADState)
    (h : ∀ x ∈ c :: rest, Vad.CHUNK_SAMPLES ≤ x.len ∧ Vad.chunkIsSpeech cfg x = true) :
    Vad.runVAD cfg st (c :: rest) =
      ({ speech_buffer := st.speech_buffer ++ (c :: rest).map Vad.Chunk.len
         silence_samples := 0
         speech_samples :=
           (if st.in_speech then st.speech_samples else 0) + ((c :: rest).map Vad.Chunk.len).sum
         in_speech := true
         speech_start_time := if st.in_speech then st.speech_start_time else some 0 }, []) := by
  have hc := h c (List.mem_cons_self c rest)
  have hlen : ¬ c.len < Vad.CHUNK_SAMPLES := by
    have := hc.1; omega
  rw [runVAD_cons, process_chunk_speech_eq cfg st c 0 hlen hc.2,
    runVAD_speech_cont cfg rest _ (fun x hx => h x (List.mem_cons_of_mem c hx)) rfl]
  simp [List.append_assoc, Nat.add_assoc]

/-- Processing a silence-classified run from an in-speech state whose
speech counter has reached the speech threshold: as soon as the
accumulated contiguous silence reaches the silence threshold, a segment
is emitted. -/
theorem runVAD_silence_emits (cfg : Vad.VADConfig) :
    ∀ (xs : List Vad.Chunk) (st : Vad.VADState),
      (∀ c ∈ xs, Vad.CHUNK_SAMPLES ≤ c.len ∧ Vad.chunkIsSpeech cfg c = false) →
      st.in_speech = true →
      cfg.min_speech_samples ≤ st.speech_samples →
      st.speech_buffer ≠ [] →
      st.silence_samples < cfg.min_silence_samples →
      cfg.min_silence_samples ≤ st.silence_samples + (xs.map Vad.Chunk.len).sum →
      (Vad.runVAD cfg st xs).2 ≠ [] := by
  intro xs
  induction xs with
  | nil =>
      intro st _ _ _ _ hlt hge
      simp at hge
      omega
  | cons c rest ih =>
      intro st h hin hsp hb hlt hge
      have hc := h c (List.mem_cons_self c rest)
      have hlen : ¬ c.len < Vad.CHUNK_SAMPLES := by
        have := hc.1; omega
      by_cases hsil : cfg.min_silence_samples ≤ st.silence_samples + c.len
      · rw [runVAD_cons, process_chunk_silence_emit_eq cfg st c 0 hlen hc.2 hin hsil]
        have hba : st.speech_buffer ++ [c.len] ≠ [] := by simp
        simp [Vad.emit_segment, hsp, hba]
      · rw [runVAD_cons, process_chunk_silence_cont_eq cfg st c 0 hlen hc.2 hin hsil]
        simp only [Option.toList_none, List.nil_append]
        simp only [List.map_cons, List.sum_cons] at hge
        refine ih _ (fun x hx => h x (List.mem_cons_of_mem c hx)) rfl hsp (by simp) ?_ ?_
        · show st.silence_samples + c.len < cfg.min_silence_samples
          omega
        · show cfg.min_silence_samples ≤ st.silence_samples + c.len + (rest.map Vad.Chunk.len).sum
          omega

/-- C1, counterexample: with min_speech_ms 250 and min_silence_ms 128,
four speech chunks, one silence chunk, four speech chunks and four
silence chunks make the VAD emit a segment, although the input contains
no contiguous speech run of min_speech_samples followed by a qualifying
silence run; the speech counter accumulated across the short silence
gap. -/
theorem vad_contiguous_speech_iff_refuted :
    (Vad.runVAD vadCfgCx Vad.VADState.init vadChunksCx).2.length = 1 ∧
    ¬ Vad.specQualifyingRun vadCfgCx vadChunksCx := by
  decide

/-- C1, amended: for well-formed chunk sequences and a positive silence
threshold, a contiguous speech run totalling min_speech_samples followed
by a silence run totalling min_silence_samples always produces an
emission; and conversely every emitted segment carries at least
min_speech_samples of speech-classified samples accumulated within its
in-speech episode, possibly across silence gaps shorter than the
threshold, and is closed by a contiguous silence run of at least
min_silence_samples. -/
theorem vad_segment_emission_amended (cfg : Vad.VADConfig) (chunks : List Vad.Chunk)
    (hwf : ∀ c ∈ chunks, Vad.CHUNK_SAMPLES ≤ c.len)
    (hsil : 0 < cfg.min_silence_samples) :
    (Vad.specQualifyingRun cfg chunks → (Vad.runVAD cfg Vad.VADState.init chunks).2 ≠ []) ∧
    (∀ r ∈ (Vad.runVAD cfg Vad.VADState.init chunks).2,
      cfg.min_speech_samples ≤ r.speechAtEmit ∧ cfg.min_silence_samples ≤ r.silenceAtEmit) := by
  constructor
  · intro hspec
    obtain ⟨i, hi, d1, hd1b, d2, hd2b, hpos1, hpos2, hle, hallS, hminS, hallZ, hminZ⟩ := hspec
    have h2 : (chunks.drop (i + d1)).take d2 ++ chunks.drop (i + d1 + d2) =
        chunks.drop (i + d1) := by
      conv_rhs => rw [← List.take_append_drop d2 (chunks.drop (i + d1))]
      congr 1
      rw [List.drop_drop]
    have h1 : (chunks.drop i).take d1 ++ chunks.drop (i + d1) = chunks.drop i := by
      conv_rhs => rw [← List.take_append_drop d1 (chunks.drop i)]
      congr 1
      rw [List.drop_drop]
    have hdecomp : chunks =
        chunks.take i ++ ((chunks.drop i).take d1 ++
          ((chunks.drop (i + d1)).take d2 ++ chunks.drop (i + d1 + d2))) := by
      rw [h2, h1, List.take_append_drop]
    have hSlen : ((chunks.drop i).take d1).length = d1 := by
      rw [List.length_take, List.length_drop]
      omega
    have hSmem : ∀ x ∈ (chunks.drop i).take d1,
        Vad.CHUNK_SAMPLES ≤ x.len ∧ Vad.chunkIsSpeech cfg x = true := by
      intro x hx
      refine ⟨hwf x (List.mem_of_mem_drop (List.mem_of_mem_take hx)), ?_⟩
      exact List.all_eq_true.1 hallS x hx
    have hZmem : ∀ x ∈ (chunks.drop (i + d1)).take d2,
        Vad.CHUNK_SAMPLES ≤ x.len ∧ Vad.chunkIsSpeech cfg x = false := by
      intro x hx
      refine ⟨hwf x (List.mem_of_mem_drop (List.mem_of_mem_take hx)), ?_⟩
      have := List.all_eq_true.1 hallZ x hx
      simpa using this
    rw [hdecomp, runVAD_append, runVAD_append]
    cases hS : (chunks.drop i).take d1 with
    | nil => rw [hS] at hSlen; simp at hSlen; omega
    | cons c rest =>
        rw [hS] at hSmem hminS
        rw [runVAD_speech_run cfg c rest _ hSmem, runVAD_append]
        have hZne := runVAD_silence_emits cfg ((chunks.drop (i + d1)).take d2)
          { speech_buffer :=
              (Vad.runVAD cfg Vad.VADState.init (chunks.take i)).1.speech_buffer ++
                (c :: rest).map Vad.Chunk.len
            silence_samples := 0
            speech_samples :=
              (if (Vad.runVAD cfg Vad.VADState.init (chunks.take i)).1.in_speech then
                (Vad.runVAD cfg Vad.VADState.init (chunks.take i)).1.speech_samples else 0) +
                ((c :: rest).map Vad.Chunk.len).sum
            in_speech := true
            speech_start_time :=
              if (Vad.runVAD cfg Vad.VADState.init (chunks.take i)).1.in_speech then
                (Vad.runVAD cfg Vad.VADState.init (chunks.take i)).1.speech_start_time
              else some 0 }
          hZmem rfl
          (le_trans hminS (Nat.le_add_left _ _))
          (by simp)
          hsil
          (by simpa using hminZ)
        intro heq
        simp only [List.append_eq_nil, List.nil_append] at heq
        exact hZne heq.2.1
  · intro r hr
    exact runVAD_records cfg chunks Vad.VADState.init r hr

/-- C1 witness: eight speech chunks then four silence chunks under the
counterexample configuration form a qualifying contiguous run, so a
segment is emitted, and every emitted record satisfies both
thresholds. -/
theorem vad_segment_emission_amended_witness :
    (Vad.runVAD vadCfgCx Vad.VADState.init vadChunksW).2 ≠ [] ∧
    (∀ r ∈ (Vad.runVAD vadCfgCx Vad.VADState.init vadChunksW).2,
      vadCfgCx.min_speech_samples ≤ r.speechAtEmit ∧
      vadCfgCx.min_silence_samples ≤ r.silenceAtEmit) := by
  have h := vad_segment_emission_amended vadCfgCx vadChunksW (by decide) (by decide)
  exact ⟨h.1 (by decide), h.2⟩

/-- A reachable VAD state with an empty buffer is the initial state:
counters, flag and start time are all clear. -/
theorem vad_reachable_empty_init :
    ∀ (cfg : Vad.VADConfig) (st : Vad.VADState), Vad.ReachableVAD cfg st →
      st.speech_buffer = [] → st = Vad.VADState.init := by
  intro cfg st h
  induction h with
  | start => intro _; rfl
  | resetStep st2 _ _ => intro _; rfl
  | step st2 c now _ ih =>
      intro hb
      by_cases hlen : c.len < Vad.CHUNK_SAMPLES
      · rw [process_chunk_short cfg st2 c now hlen] at hb ⊢
        exact ih hb
      · cases hsp : Vad.chunkIsSpeech cfg c
        · cases hin : st2.in_speech
          · rw [process_chunk_silence_idle_eq cfg st2 c now hlen hsp hin] at hb ⊢
            exact ih hb
          · by_cases hsil : cfg.min_silence_samples ≤ st2.silence_samples + c.len
            · rw [process_chunk_silence_emit_eq cfg st2 c now hlen hsp hin hsil]
            · rw [process_chunk_silence_cont_eq cfg st2 c now hlen hsp hin hsil] at hb
              simp at hb
        · rw [process_chunk_speech_eq cfg st2 c now hlen hsp] at hb
          simp at hb

/-- C9: muting and immediately unmuting, on a reachable state whose VAD
buffer is empty and whose transcriber is not muted, restores exactly the
state before the mute call: the round trip is the identity. -/
theorem mute_unmute_identity :
    ∀ (cfg : Vad.VADConfig) (st : FastWhisper.TranscriberState),
      Vad.ReachableVAD cfg st.vad → st.vad.speech_buffer = [] → st.muted = false →
      FastWhisper.unmute (FastWhisper.mute st) = st := by
  intro cfg st hreach hb hm
  have hv : st.vad = Vad.VADState.init := vad_reachable_empty_init cfg st.vad hreach hb
  obtain ⟨m, v⟩ := st
  simp only at hv hm
  subst hv
  subst hm
  rfl

/-- C9 witness: the round trip fixes the fresh unmuted transcriber. -/
theorem mute_unmute_identity_witness :
    FastWhisper.unmute (FastWhisper.mute { muted := false, vad := Vad.VADState.init }) =
      { muted := false, vad := Vad.VADState.init } :=
  mute_unmute_identity vadCfg7 { muted := false, vad := Vad.VADState.init }
    Vad.ReachableVAD.start rfl rfl

end Kira
